import Mathlib

/-!
Shallow embedding of the dataset-comparison core of `src/core/data_diffs.py`
(module-level helpers, `DataComparator`, and the truncation step of
`DataDiff._process_mismatches`), together with theorems checking the
natural-language specification against it.

Modelling conventions:
* A pandas cell value is a `Value` (null/NaN collapse into `Value.null`);
  `pd.isna` is `Value.isna`, `str(value)` is `Value.toStr`.
* A DataFrame is a column-name list plus a list of rows (each row a list of
  values, positionally matching the columns).  Looking up a missing column
  yields `Value.null` (the spec's §3 "ragged rows permitted; engine treats
  missing columns as null").
* `pd.util.hash_pandas_object` is modelled injectively: the "hash" of a row
  restricted to a column list is that list of raw values itself.
* Python `set` iteration order is unspecified; sets of keys are modelled as
  deduplicated lists, which realises one legitimate concrete iteration
  order.  No theorem below depends on a particular set order except where a
  claim itself asserts order-independence.
* Exceptions become `Except String`; the pure row operations of the source
  never raise, so only the explicit `raise` sites produce errors.
-/

namespace DataQE

/-- A tabular cell value: null/NaN, a string, an integer, or a boolean. -/
inductive Value where
  | null
  | str (s : String)
  | int (n : Int)
  | bool (b : Bool)
deriving DecidableEq, Repr

/-- `pd.isna(value)`: true exactly on null/NaN. -/
def Value.isna : Value → Bool
  | .null => true
  | _ => false

/-- Python `str(value)` on the values we model (`str(float('nan')) = "nan"`,
booleans print capitalized). Only reached on non-null values in
`normalize_key_value`. -/
def Value.toStr : Value → String
  | .null => "nan"
  | .str s => s
  | .int n => toString n
  | .bool b => if b then "True" else "False"

/-- The whitespace characters of Python's `\s` class / `str.strip()`
(ASCII fragment). -/
def isWsChar (c : Char) : Bool :=
  c = ' ' || c = '\t' || c = '\n' || c = '\r' || c = '\x0b' || c = '\x0c'

/-- `re.sub(r'[_\s]+', '', s)`: deleting every maximal run of whitespace or
underscore characters deletes exactly the whitespace/underscore characters. -/
def removeWsUnderscore (l : List Char) : List Char :=
  l.filter (fun c => !(isWsChar c || c = '_'))

/-- Python `str.strip()`: drop leading and trailing whitespace. -/
def stripChars (l : List Char) : List Char :=
  (((l.dropWhile isWsChar).reverse).dropWhile isWsChar).reverse

/-- `str.lower()` (ASCII fragment). -/
def lowerChars (l : List Char) : List Char := l.map Char.toLower

/-- `lower` on whole strings: `col.lower()`. -/
def lowerStr (s : String) : String := String.mk (lowerChars s.toList)

/-- `normalize_key_value` (data_diffs.py lines 16-26): null/NaN ↦ "NA",
otherwise `str(value).lower()`, then `re.sub(r'[_\s]+','', ·)`, then
`.strip()`.  The `except` fallback (lines 24-26) is unreachable: every
operation involved is total. -/
def normalize_key_value (v : Value) : String :=
  if v.isna then "NA"
  else String.mk (stripChars (removeWsUnderscore (lowerChars v.toStr.toList)))

/-- The spec's wording for the Key Normalizer (§4.1): "convert to string,
lowercase, strip, and remove all whitespace and underscore characters". -/
def normalizeSpec (v : Value) : String :=
  if v.isna then "NA"
  else String.mk (removeWsUnderscore (stripChars (lowerChars v.toStr.toList)))

lemma dropWhile_eq_self_of_none (p : Char → Bool) (l : List Char)
    (h : ∀ c ∈ l, p c = false) : l.dropWhile p = l := by
  cases l with
  | nil => rfl
  | cons c l => simp [List.dropWhile_cons, h c (by simp)]

lemma strip_of_removeWs (l : List Char) :
    stripChars (removeWsUnderscore l) = removeWsUnderscore l := by
  have hnone : ∀ c ∈ removeWsUnderscore l, isWsChar c = false := by
    intro c hc
    have := List.of_mem_filter hc
    simp only [Bool.not_eq_true'] at this
    cases hw : isWsChar c with
    | false => rfl
    | true => simp [hw] at this
  unfold stripChars
  rw [dropWhile_eq_self_of_none _ _ hnone,
      dropWhile_eq_self_of_none _ _ (by intro c hc; exact hnone c (by simpa using hc)),
      List.reverse_reverse]

lemma filter_dropWhile (p q : Char → Bool) (l : List Char)
    (h : ∀ c, q c = true → p c = false) :
    (l.dropWhile q).filter p = l.filter p := by
  induction l with
  | nil => rfl
  | cons c l ih =>
    by_cases hq : q c = true
    · rw [List.dropWhile_cons_of_pos hq, ih, List.filter_cons_of_neg]
      simp [h c hq]
    · rw [List.dropWhile_cons_of_neg hq]

lemma removeWs_strip (l : List Char) :
    removeWsUnderscore (stripChars l) = removeWsUnderscore l := by
  have hpq : ∀ c, isWsChar c = true → (!(isWsChar c || c = '_')) = false := by
    intro c hc; simp [hc]
  unfold stripChars removeWsUnderscore
  rw [List.filter_reverse, filter_dropWhile _ _ _ hpq, List.filter_reverse,
      List.reverse_reverse, filter_dropWhile _ _ _ hpq]

lemma normalize_eq_spec (v : Value) : normalize_key_value v = normalizeSpec v := by
  unfold normalize_key_value normalizeSpec
  by_cases h : v.isna <;> simp [h, strip_of_removeWs, removeWs_strip]

/-- `compare_values` (data_diffs.py lines 28-43): NaN equals only NaN,
numbers compare numerically — `isinstance(True, int)` holds in Python, so
booleans take the numeric branch with `True == 1` and `False == 0` —
strings compare case-insensitively, and the remaining cross-type pairs
(number vs string) fall to plain `==`, which is `False` for them. -/
def compare_values (src_val tgt_val : Value) : Bool :=
  match src_val, tgt_val with
  | .null, .null => true
  | .null, _ => false
  | _, .null => false
  | .int m, .int n => m = n
  | .int m, .bool b => m = (if b then 1 else 0)
  | .bool a, .int n => (if a then 1 else 0) = n
  | .bool a, .bool b => a = b
  | .str s, .str t => lowerStr s = lowerStr t
  | a, b => a = b

/-- A pandas DataFrame: named columns and positional rows. -/
structure DF where
  cols : List String
  rows : List (List Value)
deriving DecidableEq, Repr

/-- `row[col]` for a row of a DataFrame with columns `cols`; a missing
column reads as null (spec §3: ragged rows treated as null). -/
def getVal (cols : List String) (row : List Value) (c : String) : Value :=
  match cols.indexOf? c with
  | some i => row.getD i Value.null
  | none => Value.null

/-- The normalized composite key of a row
(`tuple(normalize_key_value(row[col]) for col in key_columns)`,
data_diffs.py lines 399-402). -/
def keyTuple (cols : List String) (keyCols : List String) (row : List Value) :
    List String :=
  keyCols.map (fun c => normalize_key_value (getVal cols row c))

/-- The per-key value fingerprint over the non-key columns
(data_diffs.py lines 469-487): `normalize_key_value(row[col])` when the
column exists on this side, `None` otherwise. -/
def fingerprint (cols : List String) (nonKeyCols : List String)
    (row : List Value) : List (Option String) :=
  nonKeyCols.map (fun c =>
    if c ∈ cols then some (normalize_key_value (getVal cols row c)) else none)

/-- Which side of the comparison a diff row came from (`__source`). -/
inductive Side where
  | source
  | target
deriving DecidableEq, Repr

/-- `__mismatch_type` of a diff row. -/
inductive Tag where
  | sourceOnly
  | targetOnly
  | valueMismatch
deriving DecidableEq, Repr

/-- One row of the combined diff output. -/
structure TaggedRow where
  side : Side
  tag : Tag
  vals : List Value
deriving DecidableEq, Repr

/-- Code-point lexicographic `≤` on character lists (Python string
comparison). -/
def strLeList : List Char → List Char → Bool
  | [], _ => true
  | _ :: _, [] => false
  | a :: as, b :: bs => if a = b then strLeList as bs else decide (a < b)

/-- Python `s <= t` on strings, used by `sorted(...)`. -/
def strLeb (s t : String) : Bool := strLeList s.toList t.toList

/-- The dict `{col.lower(): col}` maps a lowercase name to the **last**
column having it; `colForKey` performs that lookup. -/
def colForKey (cols : List String) (key : String) : String :=
  (cols.reverse.find? (fun c => lowerStr c = key)).getD ""

/-- Output of `_normalize_column_names`. -/
structure SharedColInfo where
  shared_col_keys : List String
  src_shared_cols : List String
  tgt_shared_cols : List String
deriving DecidableEq, Repr

/-- `DataComparator._normalize_column_names` (lines 125-151): shared
lowercase column keys, sorted; raises when the intersection is empty. -/
def normalize_column_names (src tgt : DF) : Except String SharedColInfo :=
  let sharedKeys :=
    (((src.cols.map lowerStr).filter
        (fun k => decide (k ∈ tgt.cols.map lowerStr))).dedup).insertionSort
      (fun a b => strLeb a b)
  if sharedKeys = [] then
    .error "DataFrames have no columns in common"
  else
    .ok { shared_col_keys := sharedKeys
          src_shared_cols := sharedKeys.map (colForKey src.cols)
          tgt_shared_cols := sharedKeys.map (colForKey tgt.cols) }

/-- `''.join(c for c in col.lower() if c.isalnum())`. -/
def alphanumLower (s : String) : String :=
  String.mk ((lowerChars s.toList).filter Char.isAlphanum)

/-- `DataComparator._validate_key_columns` (lines 153-188) for a non-empty
requested key list: indices of shared columns matching a requested key
case-insensitively, extended by alphanumeric matching when not all keys
were found; raises when no index matches. -/
def validate_key_columns (keyColumns : List String) (info : SharedColInfo) :
    Except String (List String × List String) :=
  let keyLower := keyColumns.map lowerStr
  let n := info.shared_col_keys.length
  let idxA := (List.range n).filter
    (fun i => decide (info.shared_col_keys.getD i "" ∈ keyLower))
  let idxs :=
    if idxA.length < keyColumns.length then
      let keyAl := keyColumns.map alphanumLower
      idxA ++ (List.range n).filter (fun i =>
        decide (alphanumLower (info.shared_col_keys.getD i "") ∈ keyAl) &&
        decide (i ∉ idxA))
    else idxA
  if idxs = [] then
    .error "Key columns not found in both dataframes"
  else
    .ok (idxs.map (fun i => info.src_shared_cols.getD i ""),
         idxs.map (fun i => info.tgt_shared_cols.getD i ""))

/-- Result dict of `_compare_with_keys`.  `value_mismatch_rows` carries the
`__source` tag of each Value-Mismatch row. -/
structure KeyCompareResult where
  in_src_not_in_tgt : List (List Value)
  in_tgt_not_in_src : List (List Value)
  value_mismatch_rows : List (Side × List Value)
  value_mismatches : Nat
  total_diff_count : Nat
deriving DecidableEq, Repr

/-- The Value-Mismatch rows emitted for one common key
(data_diffs.py lines 459-522): the source rows of the key whose value
fingerprint appears in no target row of the key, then the target rows
whose fingerprint appears in no source row of the key.  (The code walks
`src_only_hashes` / `tgt_only_hashes` and emits every row stored under
each one-sided hash; the rows so emitted are exactly these filters — set
iteration only permutes them.) -/
def vmRowsForKey (srcCols tgtCols : List String) (nonKeyCols : List String)
    (srcRowsK tgtRowsK : List (List Value)) : List (Side × List Value) :=
  ((srcRowsK.filter (fun r =>
      decide (fingerprint srcCols nonKeyCols r ∉
        tgtRowsK.map (fingerprint tgtCols nonKeyCols)))).map
    (fun r => (Side.source, r)))
  ++ ((tgtRowsK.filter (fun r =>
      decide (fingerprint tgtCols nonKeyCols r ∉
        srcRowsK.map (fingerprint srcCols nonKeyCols)))).map
    (fun r => (Side.target, r)))

/-- `DataComparator._compare_with_keys` (lines 391-598).  Key sets are
modelled as deduplicated key lists; the fixed-size batching of common keys
(line 446-447) partitions the key set without changing what is emitted per
key, so it does not appear.  The `continue` at line 460 never fires (a
common key has rows on both sides by construction). -/
def compare_with_keys (src tgt : DF) (keyCols : List String) : KeyCompareResult :=
  let ktS := fun r => keyTuple src.cols keyCols r
  let ktT := fun r => keyTuple tgt.cols keyCols r
  let srcKeys := src.rows.map ktS
  let tgtKeys := tgt.rows.map ktT
  let inS := src.rows.filter (fun r => decide (ktS r ∉ tgtKeys))
  let inT := tgt.rows.filter (fun r => decide (ktT r ∉ srcKeys))
  let commonKeys := (srcKeys.filter (fun k => decide (k ∈ tgtKeys))).dedup
  let nonKeyCols := src.cols.filter (fun c => decide (c ∉ keyCols))
  let vm := commonKeys.flatMap (fun k =>
    vmRowsForKey src.cols tgt.cols nonKeyCols
      (src.rows.filter (fun r => decide (ktS r = k)))
      (tgt.rows.filter (fun r => decide (ktT r = k))))
  { in_src_not_in_tgt := inS
    in_tgt_not_in_src := inT
    value_mismatch_rows := vm
    value_mismatches := vm.length / 2
    total_diff_count := inS.length + inT.length + vm.length }

/-- The row "hash" of `pd.util.hash_pandas_object(df[shared_cols])`,
modelled injectively as the raw value tuple over the given columns. -/
def rowHash (cols : List String) (sharedCols : List String)
    (row : List Value) : List Value :=
  sharedCols.map (fun c => getVal cols row c)

/-- Result dict of `df_hash_for_compare` (fields the callers read). -/
structure HashCompareResult where
  in_src_not_in_tgt : List (List Value)
  in_tgt_not_in_src : List (List Value)
  value_mismatches : Nat
  total_diff_count : Nat
  is_identical : Bool
deriving DecidableEq, Repr

/-- `DataComparator.df_hash_for_compare` (lines 331-389): a source row is
kept iff its hash lies in `src_hash_set - tgt_hash_set`, i.e. iff its hash
is not a target hash; symmetrically for target rows.  `value_mismatches`
is hard-coded 0. -/
def df_hash_for_compare (src tgt : DF) : Except String HashCompareResult := do
  let info ← normalize_column_names src tgt
  let srcHashes := src.rows.map (rowHash src.cols info.src_shared_cols)
  let tgtHashes := tgt.rows.map (rowHash tgt.cols info.tgt_shared_cols)
  let srcDiff := src.rows.filter (fun r =>
    decide (rowHash src.cols info.src_shared_cols r ∉ tgtHashes))
  let tgtDiff := tgt.rows.filter (fun r =>
    decide (rowHash tgt.cols info.tgt_shared_cols r ∉ srcHashes))
  .ok { in_src_not_in_tgt := srcDiff
        in_tgt_not_in_src := tgtDiff
        value_mismatches := 0
        total_diff_count := srcDiff.length + tgtDiff.length
        is_identical := srcDiff.length = 0 && tgtDiff.length = 0 }

/-- Running aggregate of `compare_dataframes`'s chunk loop
(lines 218-274): concatenated Source-only rows, Target-only rows,
Value-Mismatch rows, summed per-chunk `value_mismatches` and summed
per-chunk `total_diff_count`. -/
structure Agg where
  srcOnly : List (List Value)
  tgtOnly : List (List Value)
  vmRows : List (Side × List Value)
  vmCount : Nat
  totalDiff : Nat
deriving DecidableEq, Repr

def Agg.empty : Agg := ⟨[], [], [], 0, 0⟩

/-- Fold one chunk's key-mode result into the aggregate (the code appends
chunk dataframes and adds the two counters; appending an empty frame is a
no-op, so the emptiness guards of lines 243-251 change nothing). -/
def Agg.addKeyChunk (a : Agg) (r : KeyCompareResult) : Agg :=
  { srcOnly := a.srcOnly ++ r.in_src_not_in_tgt
    tgtOnly := a.tgtOnly ++ r.in_tgt_not_in_src
    vmRows := a.vmRows ++ r.value_mismatch_rows
    vmCount := a.vmCount + r.value_mismatches
    totalDiff := a.totalDiff + r.total_diff_count }

/-- Fold one chunk's hash-mode result into the aggregate. -/
def Agg.addHashChunk (a : Agg) (r : HashCompareResult) : Agg :=
  { srcOnly := a.srcOnly ++ r.in_src_not_in_tgt
    tgtOnly := a.tgtOnly ++ r.in_tgt_not_in_src
    vmRows := a.vmRows
    vmCount := a.vmCount
    totalDiff := a.totalDiff + r.total_diff_count }

/-- The positional window of chunk `i`: `df.iloc[i*cs : min((i+1)*cs, total)]`
(lines 228-233; slicing past the end yields the empty frame). -/
def sliceChunk (cs i : Nat) (rows : List (List Value)) : List (List Value) :=
  (rows.drop (i * cs)).take cs

/-- `chunks = (total_rows + chunk_size - 1) // chunk_size` (line 206). -/
def numChunks (cs total : Nat) : Nat := (total + cs - 1) / cs

/-- The `for i in range(chunks)` loop of `compare_dataframes` in key mode
(lines 227-257): compare each positional window pair and accumulate. -/
def chunkKeyCompare (cs : Nat) (srcCols tgtCols : List String)
    (srcRows tgtRows : List (List Value)) (keyCols : List String) : Agg :=
  (List.range (numChunks cs (max srcRows.length tgtRows.length))).foldl
    (fun acc i => acc.addKeyChunk
      (compare_with_keys ⟨srcCols, sliceChunk cs i srcRows⟩
        ⟨tgtCols, sliceChunk cs i tgtRows⟩ keyCols))
    Agg.empty

/-- The same loop in hash mode (lines 258-269); a failing chunk aborts the
remaining ones. -/
def chunkHashCompare (cs : Nat) (srcCols tgtCols : List String)
    (srcRows tgtRows : List (List Value)) : Except String Agg :=
  (List.range (numChunks cs (max srcRows.length tgtRows.length))).foldlM
    (fun acc i => do
      let r ← df_hash_for_compare ⟨srcCols, sliceChunk cs i srcRows⟩
        ⟨tgtCols, sliceChunk cs i tgtRows⟩
      .ok (acc.addHashChunk r))
    Agg.empty

/-- The summary dataframe of `compare_dataframes` (lines 312-319). -/
structure Summary where
  totalSrcRows : Nat
  totalTgtRows : Nat
  rowsOnlyInSource : Nat
  rowsOnlyInTarget : Nat
  valueMismatches : Nat
  totalDifferences : Nat
  result : String
deriving DecidableEq, Repr

/-- The combined diff dataframe (lines 288-297): Source-only rows, then
Target-only rows, then Value-Mismatch rows, each carrying `__source` and
`__mismatch_type`. -/
def taggedOutput (a : Agg) : List TaggedRow :=
  a.srcOnly.map (fun r => ⟨Side.source, Tag.sourceOnly, r⟩)
  ++ a.tgtOnly.map (fun r => ⟨Side.target, Tag.targetOnly, r⟩)
  ++ a.vmRows.map (fun p => ⟨p.1, Tag.valueMismatch, p.2⟩)

/-- The summary dataframe assembled at lines 300-319: the final
value-mismatch count is `max` of the summed per-chunk counts and the
recount `(Value-Mismatch rows in the combined output) // 2`
(lines 300-310). -/
def summaryOfAgg (src tgt : DF) (agg : Agg) : Summary :=
  { totalSrcRows := src.rows.length
    totalTgtRows := tgt.rows.length
    rowsOnlyInSource := agg.srcOnly.length
    rowsOnlyInTarget := agg.tgtOnly.length
    valueMismatches := max agg.vmCount (agg.vmRows.length / 2)
    totalDifferences := agg.totalDiff
    result := if agg.totalDiff = 0 then "Identical"
              else "Differences found" }

/-- `DataComparator.compare_dataframes` (lines 190-329).  `chunk_size = 0`
reproduces Python's ZeroDivisionError at line 206 (wrapped like every
other failure by the `except` at lines 326-329).  A non-empty key-column
list selects key mode after column/key validation; otherwise every chunk
runs the row-hash comparison. -/
def compare_dataframes (src tgt : DF) (keyColumns : Option (List String))
    (chunk_size : Nat) : Except String (List TaggedRow × Summary) :=
  (show Except String (List TaggedRow × Summary) from
   if chunk_size = 0 then
    .error "integer division or modulo by zero"
  else
    match keyColumns with
    | some (k :: ks) => do
      let info ← normalize_column_names src tgt
      let keys ← validate_key_columns (k :: ks) info
      let agg := chunkKeyCompare chunk_size src.cols tgt.cols src.rows
        tgt.rows keys.1
      .ok (taggedOutput agg, summaryOfAgg src tgt agg)
    | _ => do
      let agg ← chunkHashCompare chunk_size src.cols tgt.cols src.rows
        tgt.rows
      .ok (taggedOutput agg, summaryOfAgg src tgt agg)
  ).mapError (fun e => "Data comparison failed: " ++ e)

/-- Python `abs` on rationals. -/
def ratAbs (q : ℚ) : ℚ := if q < 0 then -q else q

/-- `DataComparator.check_threshold` (lines 601-637) over exact rationals
(the Python floats at the claimed inputs behave identically). -/
def check_threshold (src_rec_count tgt_rec_count : ℚ)
    (threshold_percentage : ℚ) : Bool × String :=
  let threshold_value := tgt_rec_count * threshold_percentage
  if src_rec_count = tgt_rec_count then
    (true, "Record Count Match Exactly")
  else if ratAbs (src_rec_count - tgt_rec_count) ≤ ratAbs threshold_value then
    (true, "Record Count Match, with acceptable threshold")
  else
    (false, "Record Count Mismatch")

/-- A diff row carrying its precomputed `__key` column
(`create_composite_keys`, data_diffs.py lines 91-112). -/
structure KeyedRow where
  key : List String
  vals : List Value
deriving DecidableEq, Repr

/-- `create_composite_keys` (lines 91-112): attach the normalized composite
key to every row. -/
def create_composite_keys (cols keyCols : List String)
    (rows : List (List Value)) : List KeyedRow :=
  rows.map (fun r => ⟨keyTuple cols keyCols r, r⟩)

/-- One source/target row pair differs in some non-key column
(data_diffs.py lines 1120-1131; both sides share the column list here, so
the `col in src_row and col in tgt_row` guard always holds). -/
def rowPairHasMismatch (cols nonKeyCols : List String)
    (s t : KeyedRow) : Bool :=
  nonKeyCols.any (fun c =>
    !(compare_values (getVal cols s.vals c) (getVal cols t.vals c)))

/-- The `for key in common_keys` loop of `DataDiff._process_mismatches`
(lines 1105-1153): walk the common keys, skip keys lacking rows on either
side, record a key whose rows mismatch in some non-key column, and stop
as soon as `mismatch_count` reaches `max_value_mismatches`. -/
def collectVmKeys (cols nonKeyCols : List String)
    (source_rows target_rows : List KeyedRow) (maxVM : Nat) :
    List (List String) → Nat → List (List String)
  | [], _ => []
  | k :: rest, cnt =>
    if maxVM ≤ cnt then []
    else
      let srcK := source_rows.filter (fun r => decide (r.key = k))
      let tgtK := target_rows.filter (fun r => decide (r.key = k))
      if srcK.isEmpty || tgtK.isEmpty then
        collectVmKeys cols nonKeyCols source_rows target_rows maxVM rest cnt
      else if srcK.any (fun s => tgtK.any (fun t =>
          rowPairHasMismatch cols nonKeyCols s t)) then
        k :: collectVmKeys cols nonKeyCols source_rows target_rows maxVM rest
          (cnt + 1)
      else
        collectVmKeys cols nonKeyCols source_rows target_rows maxVM rest cnt

/-- Ordering used to model `result_df.sort_values(by=key_columns)`
(pandas ascending sort on homogeneous key columns; nulls last). -/
def valueRank : Value → Nat
  | .bool _ => 0
  | .int _ => 0
  | .str _ => 1
  | .null => 2

/-- A total `≤` on cell values compatible with pandas' ascending sort for
homogeneous columns. -/
def valueLe (a b : Value) : Bool :=
  match a, b with
  | .int m, .int n => m ≤ n
  | .str s, .str t => s ≤ t
  | .bool x, .bool y => !x || y
  | _, _ => valueRank a ≤ valueRank b

/-- Lexicographic `≤` on value tuples. -/
def valuesLe : List Value → List Value → Bool
  | [], _ => true
  | _ :: _, [] => false
  | a :: as, b :: bs => if a = b then valuesLe as bs else valueLe a b

/-- Counts dict returned by `_process_mismatches` (lines 1241-1249). -/
structure ProcessCounts where
  value_mismatch_count : Nat
  source_only_count : Nat
  target_only_count : Nat
  total_diff_count : Nat
deriving DecidableEq, Repr

/-- `DataDiff._process_mismatches` (lines 1079-1249), on rows that already
carry `__key`.  Key sets are modelled as deduplicated key lists (one
concrete realisation of Python's unspecified set iteration order).  The
`mismatch_details` bookkeeping, which no claim touches, is omitted.
Note the order of operations: the three categories are truncated to their
maxima first (`[:max_source_only]` etc., lines 1181, 1199) and the
surviving rows are sorted by key columns only afterwards (lines
1227-1229). -/
def process_mismatches (cols keyCols : List String)
    (source_rows target_rows : List KeyedRow)
    (maxVM maxSO maxTO : Nat) : List (Tag × KeyedRow) × ProcessCounts :=
  let source_keys := (source_rows.map (fun r => r.key)).dedup
  let target_keys := (target_rows.map (fun r => r.key)).dedup
  let common_keys := source_keys.filter (fun k => decide (k ∈ target_keys))
  let source_only_keys := source_keys.filter (fun k => decide (k ∉ target_keys))
  let target_only_keys := target_keys.filter (fun k => decide (k ∉ source_keys))
  let non_key_cols := cols.filter (fun c => decide (c ∉ keyCols))
  let value_mismatch_keys :=
    collectVmKeys cols non_key_cols source_rows target_rows maxVM common_keys 0
  let vmRows := value_mismatch_keys.flatMap (fun k =>
    ((source_rows.filter (fun r => decide (r.key = k)))
      ++ (target_rows.filter (fun r => decide (r.key = k)))).map
      (fun r => (Tag.valueMismatch, r)))
  let soRows := (source_only_keys.take maxSO).filterMap (fun k =>
    (source_rows.find? (fun r => decide (r.key = k))).map
      (fun r => (Tag.sourceOnly, r)))
  let toRows := (target_only_keys.take maxTO).filterMap (fun k =>
    (target_rows.find? (fun r => decide (r.key = k))).map
      (fun r => (Tag.targetOnly, r)))
  let filtered := vmRows ++ soRows ++ toRows
  let sorted := filtered.insertionSort (fun a b =>
    valuesLe (keyCols.map (getVal cols a.2.vals)) (keyCols.map (getVal cols b.2.vals)))
  (sorted,
   { value_mismatch_count := vmRows.length / 2
     source_only_count := soRows.length
     target_only_count := toRows.length
     total_diff_count := vmRows.length / 2 + soRows.length + toRows.length })

/-! ### Generic list lemmas -/

section ListLemmas

variable {α : Type} {κ : Type}

lemma countP_ext_mem (p q : α → Bool) (l : List α)
    (h : ∀ a ∈ l, p a = q a) : l.countP p = l.countP q := by
  induction l with
  | nil => rfl
  | cons a l ih =>
    rw [List.countP_cons, List.countP_cons, h a (by simp),
      ih (fun b hb => h b (by simp [hb]))]

lemma countP_or_disjoint (p q f : α → Bool) (l : List α)
    (h : ∀ a ∈ l, p a = true → q a = true → False) :
    l.countP (fun a => (p a || q a) && f a)
      = l.countP (fun a => p a && f a) + l.countP (fun a => q a && f a) := by
  induction l with
  | nil => rfl
  | cons a l ih =>
    simp only [List.countP_cons,
      ih (fun b hb => h b (by simp [hb]))]
    cases hp : p a <;> cases hq : q a <;> cases hf : f a <;>
      simp_all <;> omega

lemma sum_div_two_le (a b : Nat) : a / 2 + b / 2 ≤ (a + b) / 2 := by omega

/-- Length of a flatMap of per-key filters over a duplicate-free key list:
each element of `l` is counted once, iff its own key is in the list and the
predicate holds. -/
lemma length_flatMap_filter_key [DecidableEq κ] (K : List κ) (hK : K.Nodup)
    (l : List α) (key : α → κ) (P : κ → α → Bool) :
    (K.flatMap (fun k =>
      l.filter (fun a => decide (key a = k) && P k a))).length
    = l.countP (fun a => decide (key a ∈ K) && P (key a) a) := by
  induction K with
  | nil => simp
  | cons k K ih =>
    have hk : k ∉ K := by
      rcases List.nodup_cons.mp hK with ⟨h1, _⟩; exact h1
    have hnd : K.Nodup := (List.nodup_cons.mp hK).2
    simp only [List.flatMap_cons, List.length_append, ih hnd,
      ← List.countP_eq_length_filter]
    have hsplit := countP_or_disjoint (fun a => decide (key a = k))
      (fun a => decide (key a ∈ K)) (fun a => P (key a) a) l
      (by
        intro a _ h1 h2
        have e1 : key a = k := of_decide_eq_true h1
        have e2 : key a ∈ K := of_decide_eq_true h2
        exact hk (e1 ▸ e2))
    have hmem : ∀ a ∈ l,
        (decide (key a ∈ k :: K) && P (key a) a)
        = ((decide (key a = k) || decide (key a ∈ K)) && P (key a) a) := by
      intro a _
      by_cases h1 : key a = k <;> by_cases h2 : key a ∈ K <;>
        simp [h1, h2]
    have hfix : ∀ a ∈ l,
        (decide (key a = k) && P (key a) a)
        = (decide (key a = k) && P k a) := by
      intro a _
      by_cases h1 : key a = k
      · simp [h1]
      · simp [h1]
    rw [countP_ext_mem _ _ _ hmem, hsplit, countP_ext_mem _ _ _ hfix]

lemma mem_take_iff_index (l : List α) (n : Nat) (x : α) :
    x ∈ l.take n ↔ ∃ i, i < n ∧ l[i]? = some x := by
  constructor
  · intro h
    rcases List.mem_iff_getElem?.mp h with ⟨i, hi⟩
    rw [List.getElem?_take] at hi
    by_cases hc : i < n
    · exact ⟨i, hc, by simpa [hc] using hi⟩
    · simp [hc] at hi
  · rintro ⟨i, hin, hi⟩
    exact List.mem_iff_getElem?.mpr ⟨i, by rw [List.getElem?_take]; simp [hin, hi]⟩

lemma mem_drop_iff_index (l : List α) (n : Nat) (x : α) :
    x ∈ l.drop n ↔ ∃ i, l[n + i]? = some x := by
  constructor
  · intro h
    rcases List.mem_iff_getElem?.mp h with ⟨i, hi⟩
    rw [List.getElem?_drop] at hi
    exact ⟨i, hi⟩
  · rintro ⟨i, hi⟩
    exact List.mem_iff_getElem?.mpr ⟨i, by rw [List.getElem?_drop]; exact hi⟩

end ListLemmas

/-! ### Canonical counts of a key-mode comparison -/

/-- The composite keys of a row list. -/
def keyList (cols keyCols : List String) (rows : List (List Value)) :
    List (List String) :=
  rows.map (keyTuple cols keyCols)

/-- The non-key columns used for value fingerprints (taken from the source
column list, data_diffs.py line 443). -/
def nonKeyCols (srcCols keyCols : List String) : List String :=
  srcCols.filter (fun c => decide (c ∉ keyCols))

/-- Number of source rows whose key does not occur among the target keys. -/
def soCount (srcCols tgtCols keyCols : List String)
    (S T : List (List Value)) : Nat :=
  S.countP (fun r => decide (keyTuple srcCols keyCols r ∉ keyList tgtCols keyCols T))

/-- Number of target rows whose key does not occur among the source keys. -/
def toCount (srcCols tgtCols keyCols : List String)
    (S T : List (List Value)) : Nat :=
  T.countP (fun r => decide (keyTuple tgtCols keyCols r ∉ keyList srcCols keyCols S))

/-- A source row is a Value-Mismatch row iff its key also occurs in the
target and its fingerprint matches no target row of the same key. -/
def vmSrcPred (srcCols tgtCols keyCols : List String)
    (T : List (List Value)) (r : List Value) : Bool :=
  decide (keyTuple srcCols keyCols r ∈ keyList tgtCols keyCols T) &&
  decide (fingerprint srcCols (nonKeyCols srcCols keyCols) r ∉
    (T.filter (fun t =>
      decide (keyTuple tgtCols keyCols t = keyTuple srcCols keyCols r))).map
      (fingerprint tgtCols (nonKeyCols srcCols keyCols)))

/-- Symmetric predicate for target rows. -/
def vmTgtPred (srcCols tgtCols keyCols : List String)
    (S : List (List Value)) (t : List Value) : Bool :=
  decide (keyTuple tgtCols keyCols t ∈ keyList srcCols keyCols S) &&
  decide (fingerprint tgtCols (nonKeyCols srcCols keyCols) t ∉
    (S.filter (fun r =>
      decide (keyTuple srcCols keyCols r = keyTuple tgtCols keyCols t))).map
      (fingerprint srcCols (nonKeyCols srcCols keyCols)))

/-- Number of Value-Mismatch diff rows of a key-mode comparison. -/
def vmRowTotal (srcCols tgtCols keyCols : List String)
    (S T : List (List Value)) : Nat :=
  S.countP (vmSrcPred srcCols tgtCols keyCols T)
  + T.countP (vmTgtPred srcCols tgtCols keyCols S)

lemma cwk_in_src_len (src tgt : DF) (ks : List String) :
    (compare_with_keys src tgt ks).in_src_not_in_tgt.length
    = soCount src.cols tgt.cols ks src.rows tgt.rows := by
  simp [compare_with_keys, soCount, keyList, ← List.countP_eq_length_filter]

lemma cwk_in_tgt_len (src tgt : DF) (ks : List String) :
    (compare_with_keys src tgt ks).in_tgt_not_in_src.length
    = toCount src.cols tgt.cols ks src.rows tgt.rows := by
  simp [compare_with_keys, toCount, keyList, ← List.countP_eq_length_filter]

lemma length_flatMap_add {κ α : Type} (K : List κ) (A B : κ → List α) :
    (K.flatMap (fun k => A k ++ B k)).length
    = (K.flatMap A).length + (K.flatMap B).length := by
  induction K with
  | nil => rfl
  | cons k K ih => simp only [List.flatMap_cons, List.length_append, ih]; omega

lemma length_flatMap_filter_key_map {κ α β : Type} [DecidableEq κ]
    (K : List κ) (hK : K.Nodup) (S : List α) (key : α → κ)
    (P : κ → α → Bool) (f : α → β) :
    (K.flatMap (fun k =>
      ((S.filter (fun a => decide (key a = k))).filter (P k)).map f)).length
    = S.countP (fun a => decide (key a ∈ K) && P (key a) a) := by
  rw [← length_flatMap_filter_key K hK S key P,
    List.length_flatMap, List.length_flatMap]
  simp only [Function.comp_def]
  congr 1
  refine List.map_congr_left (fun k _ => ?_)
  rw [List.length_map, List.filter_filter]
  exact congrArg List.length (List.filter_congr (fun a _ => by rw [Bool.and_comm]))

lemma cwk_vm_len (src tgt : DF) (ks : List String) :
    (compare_with_keys src tgt ks).value_mismatch_rows.length
    = vmRowTotal src.cols tgt.cols ks src.rows tgt.rows := by
  have hK : ((keyList src.cols ks src.rows).filter
      (fun k => decide (k ∈ keyList tgt.cols ks tgt.rows))).dedup.Nodup :=
    List.nodup_dedup _
  show (((keyList src.cols ks src.rows).filter
      (fun k => decide (k ∈ keyList tgt.cols ks tgt.rows))).dedup.flatMap
      (fun k => vmRowsForKey src.cols tgt.cols (nonKeyCols src.cols ks)
        (src.rows.filter (fun r => decide (keyTuple src.cols ks r = k)))
        (tgt.rows.filter (fun t => decide (keyTuple tgt.cols ks t = k))))).length
    = vmRowTotal src.cols tgt.cols ks src.rows tgt.rows
  unfold vmRowsForKey
  rw [length_flatMap_add]
  rw [length_flatMap_filter_key_map _ hK src.rows (keyTuple src.cols ks)
        (fun k r => decide (fingerprint src.cols (nonKeyCols src.cols ks) r ∉
          (tgt.rows.filter (fun t =>
            decide (keyTuple tgt.cols ks t = k))).map
            (fingerprint tgt.cols (nonKeyCols src.cols ks)))),
      length_flatMap_filter_key_map _ hK tgt.rows (keyTuple tgt.cols ks)
        (fun k t => decide (fingerprint tgt.cols (nonKeyCols src.cols ks) t ∉
          (src.rows.filter (fun r =>
            decide (keyTuple src.cols ks r = k))).map
            (fingerprint src.cols (nonKeyCols src.cols ks))))]
  unfold vmRowTotal
  congr 1
  · refine countP_ext_mem _ _ _ (fun r hr => ?_)
    have hself : keyTuple src.cols ks r ∈ keyList src.cols ks src.rows :=
      List.mem_map_of_mem _ hr
    unfold vmSrcPred
    by_cases h : keyTuple src.cols ks r ∈ keyList tgt.cols ks tgt.rows <;>
      simp [List.mem_dedup, List.mem_filter, hself, h]
  · refine countP_ext_mem _ _ _ (fun t ht => ?_)
    have hself : keyTuple tgt.cols ks t ∈ keyList tgt.cols ks tgt.rows :=
      List.mem_map_of_mem _ ht
    unfold vmTgtPred
    by_cases h : keyTuple tgt.cols ks t ∈ keyList src.cols ks src.rows <;>
      simp [List.mem_dedup, List.mem_filter, hself, h]

/-! ### Structure of the chunk-loop aggregates -/

lemma foldl_addKeyChunk (l : List Nat) (acc : Agg)
    (F : Nat → KeyCompareResult) :
    (l.foldl (fun a i => a.addKeyChunk (F i)) acc) =
      { srcOnly := acc.srcOnly ++ l.flatMap (fun i => (F i).in_src_not_in_tgt)
        tgtOnly := acc.tgtOnly ++ l.flatMap (fun i => (F i).in_tgt_not_in_src)
        vmRows := acc.vmRows ++ l.flatMap (fun i => (F i).value_mismatch_rows)
        vmCount := acc.vmCount + (l.map (fun i => (F i).value_mismatches)).sum
        totalDiff := acc.totalDiff
          + (l.map (fun i => (F i).total_diff_count)).sum } := by
  induction l generalizing acc with
  | nil => simp
  | cons i l ih =>
    rw [List.foldl_cons, ih]
    simp [Agg.addKeyChunk, List.append_assoc]
    omega

/-- The key-mode chunk loop, decomposed into its per-chunk pieces. -/
lemma chunkKey_parts (cs : Nat) (sc tc : List String)
    (S T : List (List Value)) (ks : List String) :
    chunkKeyCompare cs sc tc S T ks =
      { srcOnly := (List.range (numChunks cs (max S.length T.length))).flatMap
          (fun i => (compare_with_keys ⟨sc, sliceChunk cs i S⟩
            ⟨tc, sliceChunk cs i T⟩ ks).in_src_not_in_tgt)
        tgtOnly := (List.range (numChunks cs (max S.length T.length))).flatMap
          (fun i => (compare_with_keys ⟨sc, sliceChunk cs i S⟩
            ⟨tc, sliceChunk cs i T⟩ ks).in_tgt_not_in_src)
        vmRows := (List.range (numChunks cs (max S.length T.length))).flatMap
          (fun i => (compare_with_keys ⟨sc, sliceChunk cs i S⟩
            ⟨tc, sliceChunk cs i T⟩ ks).value_mismatch_rows)
        vmCount := ((List.range (numChunks cs (max S.length T.length))).map
          (fun i => (compare_with_keys ⟨sc, sliceChunk cs i S⟩
            ⟨tc, sliceChunk cs i T⟩ ks).value_mismatches)).sum
        totalDiff := ((List.range (numChunks cs (max S.length T.length))).map
          (fun i => (compare_with_keys ⟨sc, sliceChunk cs i S⟩
            ⟨tc, sliceChunk cs i T⟩ ks).total_diff_count)).sum } := by
  unfold chunkKeyCompare
  rw [foldl_addKeyChunk]
  simp [Agg.empty]

lemma cwk_total (src tgt : DF) (ks : List String) :
    (compare_with_keys src tgt ks).total_diff_count
    = (compare_with_keys src tgt ks).in_src_not_in_tgt.length
      + (compare_with_keys src tgt ks).in_tgt_not_in_src.length
      + (compare_with_keys src tgt ks).value_mismatch_rows.length := rfl

lemma cwk_vm_half (src tgt : DF) (ks : List String) :
    (compare_with_keys src tgt ks).value_mismatches
    = (compare_with_keys src tgt ks).value_mismatch_rows.length / 2 := rfl

lemma sum_map_add {α : Type} (f g : α → Nat) (l : List α) :
    (l.map (fun a => f a + g a)).sum = (l.map f).sum + (l.map g).sum := by
  induction l with
  | nil => rfl
  | cons a l ih => simp [ih]; omega

lemma sum_map_div_two {α : Type} (f : α → Nat) (l : List α) :
    (l.map (fun a => f a / 2)).sum ≤ (l.map f).sum / 2 := by
  induction l with
  | nil => simp
  | cons a l ih => simp only [List.map_cons, List.sum_cons]; omega

lemma chunkKey_shape (cs : Nat) (sc tc : List String)
    (S T : List (List Value)) (ks : List String) :
    (chunkKeyCompare cs sc tc S T ks).totalDiff
      = (chunkKeyCompare cs sc tc S T ks).srcOnly.length
        + (chunkKeyCompare cs sc tc S T ks).tgtOnly.length
        + (chunkKeyCompare cs sc tc S T ks).vmRows.length
    ∧ (chunkKeyCompare cs sc tc S T ks).vmCount
        ≤ (chunkKeyCompare cs sc tc S T ks).vmRows.length / 2 := by
  rw [chunkKey_parts]
  simp only [List.length_flatMap, Function.comp_def]
  constructor
  · simp only [cwk_total, sum_map_add]
  · simp only [cwk_vm_half]
    exact sum_map_div_two _ _

lemma except_bind_ok {ε α β : Type} (e : Except ε α) (f : α → Except ε β)
    (b : β) : (e >>= f) = .ok b ↔ ∃ a, e = .ok a ∧ f a = .ok b := by
  cases e <;> simp [Bind.bind, Except.bind]

/-- Successful runs of `df_hash_for_compare`, fully characterized. -/
lemma df_hash_ok (src tgt : DF) (r : HashCompareResult)
    (h : df_hash_for_compare src tgt = .ok r) :
    ∃ info, normalize_column_names src tgt = .ok info ∧
      r = { in_src_not_in_tgt := src.rows.filter (fun row =>
              decide (rowHash src.cols info.src_shared_cols row ∉
                tgt.rows.map (rowHash tgt.cols info.tgt_shared_cols)))
            in_tgt_not_in_src := tgt.rows.filter (fun row =>
              decide (rowHash tgt.cols info.tgt_shared_cols row ∉
                src.rows.map (rowHash src.cols info.src_shared_cols)))
            value_mismatches := 0
            total_diff_count :=
              (src.rows.filter (fun row =>
                decide (rowHash src.cols info.src_shared_cols row ∉
                  tgt.rows.map (rowHash tgt.cols info.tgt_shared_cols)))).length
              + (tgt.rows.filter (fun row =>
                decide (rowHash tgt.cols info.tgt_shared_cols row ∉
                  src.rows.map (rowHash src.cols info.src_shared_cols)))).length
            is_identical :=
              (decide ((src.rows.filter (fun row =>
                decide (rowHash src.cols info.src_shared_cols row ∉
                  tgt.rows.map (rowHash tgt.cols info.tgt_shared_cols)))).length = 0)
              && decide ((tgt.rows.filter (fun row =>
                decide (rowHash tgt.cols info.tgt_shared_cols row ∉
                  src.rows.map (rowHash src.cols info.src_shared_cols)))).length = 0)) } := by
  unfold df_hash_for_compare at h
  rcases (except_bind_ok _ _ _).mp h with ⟨info, hinfo, h2⟩
  cases h2
  exact ⟨info, hinfo, rfl⟩

lemma foldlM_except_inv {σ ι : Type} (P : σ → Prop)
    (step : σ → ι → Except String σ) (l : List ι) (acc res : σ)
    (hacc : P acc)
    (hstep : ∀ s i s', P s → step s i = .ok s' → P s')
    (h : l.foldlM step acc = .ok res) : P res := by
  induction l generalizing acc with
  | nil =>
    rw [List.foldlM_nil] at h
    cases h
    exact hacc
  | cons i l ih =>
    rw [List.foldlM_cons] at h
    rcases (except_bind_ok _ _ _).mp h with ⟨s, hs, h2⟩
    exact ih s (hstep acc i s hacc hs) h2

lemma chunkHash_ok_shape (cs : Nat) (sc tc : List String)
    (S T : List (List Value)) (a : Agg)
    (h : chunkHashCompare cs sc tc S T = .ok a) :
    a.vmRows = [] ∧ a.vmCount = 0
    ∧ a.totalDiff = a.srcOnly.length + a.tgtOnly.length := by
  refine foldlM_except_inv
    (fun x => x.vmRows = [] ∧ x.vmCount = 0
      ∧ x.totalDiff = x.srcOnly.length + x.tgtOnly.length)
    _ _ Agg.empty a (by simp [Agg.empty]) ?_ h
  intro s i s2 hP hstep
  rcases (except_bind_ok _ _ _).mp hstep with ⟨r, hr, h2⟩
  cases h2
  rcases df_hash_ok _ _ _ hr with ⟨info, _, hrEq⟩
  subst hrEq
  rcases hP with ⟨p1, p2, p3⟩
  refine ⟨by simp [Agg.addHashChunk, p1], by simp [Agg.addHashChunk, p2], ?_⟩
  simp only [Agg.addHashChunk, List.length_append]
  omega

lemma mapError_ok {ε ε2 α : Type} (f : ε → ε2) (e : Except ε α) (a : α) :
    e.mapError f = .ok a ↔ e = .ok a := by
  cases e <;> simp [Except.mapError]

/-- Inversion of a successful key-mode `compare_dataframes` run. -/
lemma compare_ok_key_inv (src tgt : DF) (k : String) (ks : List String)
    (cs : Nat) (out : List TaggedRow × Summary)
    (h : compare_dataframes src tgt (some (k :: ks)) cs = .ok out) :
    cs ≠ 0 ∧ ∃ info keys,
      normalize_column_names src tgt = .ok info ∧
      validate_key_columns (k :: ks) info = .ok keys ∧
      out = (taggedOutput
          (chunkKeyCompare cs src.cols tgt.cols src.rows tgt.rows keys.1),
        summaryOfAgg src tgt
          (chunkKeyCompare cs src.cols tgt.cols src.rows tgt.rows keys.1)) := by
  unfold compare_dataframes at h
  rw [mapError_ok] at h
  by_cases hcs : cs = 0
  · rw [if_pos hcs] at h
    cases h
  · rw [if_neg hcs] at h
    rcases (except_bind_ok _ _ _).mp h with ⟨info, hinfo, h2⟩
    rcases (except_bind_ok _ _ _).mp h2 with ⟨keys, hkeys, h3⟩
    cases h3
    exact ⟨hcs, info, keys, hinfo, hkeys, rfl⟩

/-- Inversion of a successful hash-mode `compare_dataframes` run
(no key columns, or an empty key-column list, which Python treats as
falsy). -/
lemma compare_ok_hash_inv (src tgt : DF) (keyColumns : Option (List String))
    (cs : Nat) (out : List TaggedRow × Summary)
    (hk : keyColumns = none ∨ keyColumns = some [])
    (h : compare_dataframes src tgt keyColumns cs = .ok out) :
    cs ≠ 0 ∧ ∃ agg,
      chunkHashCompare cs src.cols tgt.cols src.rows tgt.rows = .ok agg ∧
      out = (taggedOutput agg, summaryOfAgg src tgt agg) := by
  unfold compare_dataframes at h
  rw [mapError_ok] at h
  by_cases hcs : cs = 0
  · rw [if_pos hcs] at h
    cases h
  · rw [if_neg hcs] at h
    rcases hk with hk | hk <;> subst hk <;>
    · rcases (except_bind_ok _ _ _).mp h with ⟨agg, hagg, h2⟩
      cases h2
      exact ⟨hcs, agg, hagg, rfl⟩

/-- Number of rows of the combined diff output tagged Value-Mismatch. -/
def countVMRows (rows : List TaggedRow) : Nat :=
  rows.countP (fun tr => decide (tr.tag = Tag.valueMismatch))

lemma countVM_taggedOutput (a : Agg) :
    countVMRows (taggedOutput a) = a.vmRows.length := by
  unfold countVMRows taggedOutput
  simp [List.countP_append, List.countP_map, Function.comp_def]

/-! ### Claims C1 and C2: the summary counting identities -/

/-- C1 (counterexample): on source `[{id:1, amt:100}]` versus target
`[{id:1, amt:200}]` with key `id`, the comparison succeeds and its summary
violates `total_differences = rows_only_in_source + rows_only_in_target +
value_mismatches` (it reports totals 2 = 0 + 0 + 2·1, counting each
Value-Mismatch *row*, while `value_mismatches` counts pairs). -/
theorem C1_pair_counting_cex :
    ((compare_dataframes ⟨["id", "amt"], [[.int 1, .int 100]]⟩
        ⟨["id", "amt"], [[.int 1, .int 200]]⟩ (some ["id"]) 500000).map
      (fun out => (out.2.totalDifferences, out.2.rowsOnlyInSource,
        out.2.rowsOnlyInTarget, out.2.valueMismatches,
        decide (out.2.totalDifferences = out.2.rowsOnlyInSource
          + out.2.rowsOnlyInTarget + out.2.valueMismatches))))
    = .ok (2, 0, 0, 1, false) := by rfl

/-- C1 (amended): for every comparison that returns a result, the
summary satisfies `total_differences = rows_only_in_source +
rows_only_in_target + (number of ValueMismatch diff rows)`; since
`value_mismatches` counts pairs, the claimed identity holds only with
`2·value_mismatches` in place of `value_mismatches` (and only when the
ValueMismatch row count is even). -/
theorem C1_total_differences_row_sum (src tgt : DF)
    (keyColumns : Option (List String)) (cs : Nat)
    (rows : List TaggedRow) (s : Summary)
    (h : compare_dataframes src tgt keyColumns cs = .ok (rows, s)) :
    s.totalDifferences
      = s.rowsOnlyInSource + s.rowsOnlyInTarget + countVMRows rows := by
  have main : ∀ a : Agg,
      (rows, s) = (taggedOutput a, summaryOfAgg src tgt a) →
      a.totalDiff = a.srcOnly.length + a.tgtOnly.length + a.vmRows.length →
      s.totalDifferences
        = s.rowsOnlyInSource + s.rowsOnlyInTarget + countVMRows rows := by
    intro a hout hshape
    injection hout with h1 h2
    subst h1
    subst h2
    simp [summaryOfAgg, countVM_taggedOutput, hshape]
  cases keyColumns with
  | none =>
    rcases compare_ok_hash_inv _ _ _ _ _ (Or.inl rfl) h with ⟨_, agg, hagg, hout⟩
    rcases chunkHash_ok_shape _ _ _ _ _ _ hagg with ⟨e1, _, e3⟩
    exact main agg hout (by simp [e1, e3])
  | some l =>
    cases l with
    | nil =>
      rcases compare_ok_hash_inv _ _ _ _ _ (Or.inr rfl) h with ⟨_, agg, hagg, hout⟩
      rcases chunkHash_ok_shape _ _ _ _ _ _ hagg with ⟨e1, _, e3⟩
      exact main agg hout (by simp [e1, e3])
    | cons k ks =>
      rcases compare_ok_key_inv _ _ _ _ _ _ h with ⟨_, info, keys, _, _, hout⟩
      exact main _ hout (chunkKey_shape _ _ _ _ _ _).1

/-- C1 (witness): a key-mode run with one source-only and one target-only
row satisfies the amended identity 2 = 1 + 1 + 0. -/
theorem C1_total_differences_row_sum_witness :
    compare_dataframes ⟨["id", "name"], [[.int 2, .str "Bob"]]⟩
      ⟨["id", "name"], [[.int 3, .str "Carol"]]⟩ (some ["id"]) 1000
      = .ok ([⟨.source, .sourceOnly, [.int 2, .str "Bob"]⟩,
              ⟨.target, .targetOnly, [.int 3, .str "Carol"]⟩],
             ⟨1, 1, 1, 1, 0, 2, "Differences found"⟩)
    ∧ (2 : Nat) = 1 + 1 + countVMRows
        [⟨.source, .sourceOnly, [.int 2, .str "Bob"]⟩,
         ⟨.target, .targetOnly, [.int 3, .str "Carol"]⟩] :=
  ⟨by rfl,
   C1_total_differences_row_sum ⟨["id", "name"], [[.int 2, .str "Bob"]]⟩
     ⟨["id", "name"], [[.int 3, .str "Carol"]]⟩ (some ["id"]) 1000
     [⟨.source, .sourceOnly, [.int 2, .str "Bob"]⟩,
      ⟨.target, .targetOnly, [.int 3, .str "Carol"]⟩]
     ⟨1, 1, 1, 1, 0, 2, "Differences found"⟩ (by rfl)⟩

/-- C2 (counterexample): with a duplicated key on the source side
(source `[{id:1, v:"a"}, {id:1, v:"a"}]`, target `[{id:1, v:"b"}]`,
key `id`), the comparison emits 3 ValueMismatch rows — an odd count, so
`count(ValueMismatch rows) % 2 = 0` fails and `value_mismatches` is not
exactly `count / 2`. -/
theorem C2_even_vm_rows_cex :
    ((compare_dataframes ⟨["id", "v"], [[.int 1, .str "a"], [.int 1, .str "a"]]⟩
        ⟨["id", "v"], [[.int 1, .str "b"]]⟩ (some ["id"]) 500000).map
      (fun out => (countVMRows out.1, decide (countVMRows out.1 % 2 = 0),
        out.2.valueMismatches)))
    = .ok (3, false, 1) := by rfl

/-- C2 (amended): for every comparison that returns a result,
`value_mismatches = (number of ValueMismatch diff rows) / 2` with
*floor* division; the row count itself need not be even when duplicate
keys have unequal fan-out across the two sides. -/
theorem C2_vm_count_floor_half (src tgt : DF)
    (keyColumns : Option (List String)) (cs : Nat)
    (rows : List TaggedRow) (s : Summary)
    (h : compare_dataframes src tgt keyColumns cs = .ok (rows, s)) :
    s.valueMismatches = countVMRows rows / 2 := by
  have main : ∀ a : Agg,
      (rows, s) = (taggedOutput a, summaryOfAgg src tgt a) →
      a.vmCount ≤ a.vmRows.length / 2 →
      s.valueMismatches = countVMRows rows / 2 := by
    intro a hout hle
    injection hout with h1 h2
    subst h1
    subst h2
    simp [summaryOfAgg, countVM_taggedOutput, Nat.max_eq_right hle]
  cases keyColumns with
  | none =>
    rcases compare_ok_hash_inv _ _ _ _ _ (Or.inl rfl) h with ⟨_, agg, hagg, hout⟩
    rcases chunkHash_ok_shape _ _ _ _ _ _ hagg with ⟨e1, e2, _⟩
    exact main agg hout (by simp [e1, e2])
  | some l =>
    cases l with
    | nil =>
      rcases compare_ok_hash_inv _ _ _ _ _ (Or.inr rfl) h with ⟨_, agg, hagg, hout⟩
      rcases chunkHash_ok_shape _ _ _ _ _ _ hagg with ⟨e1, e2, _⟩
      exact main agg hout (by simp [e1, e2])
    | cons k ks =>
      rcases compare_ok_key_inv _ _ _ _ _ _ h with ⟨_, info, keys, _, _, hout⟩
      exact main _ hout (chunkKey_shape _ _ _ _ _ _).2

/-- C2 (witness): a key-mode run producing exactly one mismatching pair
reports `value_mismatches = 2 / 2 = 1`. -/
theorem C2_vm_count_floor_half_witness :
    compare_dataframes ⟨["id", "v"], [[.int 7, .str "x"]]⟩
      ⟨["id", "v"], [[.int 7, .str "y"]]⟩ (some ["id"]) 2
      = .ok ([⟨.source, .valueMismatch, [.int 7, .str "x"]⟩,
              ⟨.target, .valueMismatch, [.int 7, .str "y"]⟩],
             ⟨1, 1, 0, 0, 1, 2, "Differences found"⟩)
    ∧ (1 : Nat) = countVMRows
        [⟨.source, .valueMismatch, [.int 7, .str "x"]⟩,
         ⟨.target, .valueMismatch, [.int 7, .str "y"]⟩] / 2 :=
  ⟨by rfl,
   C2_vm_count_floor_half ⟨["id", "v"], [[.int 7, .str "x"]]⟩
     ⟨["id", "v"], [[.int 7, .str "y"]]⟩ (some ["id"]) 2
     [⟨.source, .valueMismatch, [.int 7, .str "x"]⟩,
      ⟨.target, .valueMismatch, [.int 7, .str "y"]⟩]
     ⟨1, 1, 0, 0, 1, 2, "Differences found"⟩ (by rfl)⟩

/-! ### Claim C3: emission of Source-only / Target-only rows -/

/-- C3 (counterexample): source `[{id:1}, {id:1}]` against target
`[{id:2}]` with key `id` has exactly one key present only in the source,
yet the Key-based Matcher emits **2** SourceOnly diff rows (every
duplicate row is emitted, not just the first). -/
theorem C3_one_row_per_key_cex :
    (compare_with_keys ⟨["id"], [[.int 1], [.int 1]]⟩ ⟨["id"], [[.int 2]]⟩
        ["id"]).in_src_not_in_tgt.length = 2
    ∧ ((keyList ["id"] ["id"] [[.int 1], [.int 1]]).filter
        (fun key => decide (key ∉ keyList ["id"] ["id"] [[.int 2]]))).dedup.length
      = 1 := by
  exact ⟨by rfl, by rfl⟩

/-- C3 (amended): in key-mode the Key-based Matcher emits one SourceOnly
diff row per source **row** whose key is absent from the target (so a key
with d duplicate rows yields d SourceOnly rows), and symmetrically for
TargetOnly; the first-row-only reduction happens later, in the Mismatch
Analyzer. -/
theorem C3_all_duplicate_rows_emitted (src tgt : DF) (ks : List String)
    (k : List String) :
    (k ∉ keyList tgt.cols ks tgt.rows →
      (compare_with_keys src tgt ks).in_src_not_in_tgt.countP
          (fun r => decide (keyTuple src.cols ks r = k))
        = src.rows.countP (fun r => decide (keyTuple src.cols ks r = k)))
    ∧ (k ∉ keyList src.cols ks src.rows →
      (compare_with_keys src tgt ks).in_tgt_not_in_src.countP
          (fun r => decide (keyTuple tgt.cols ks r = k))
        = tgt.rows.countP (fun r => decide (keyTuple tgt.cols ks r = k))) := by
  constructor
  · intro hk
    show (src.rows.filter _).countP _ = _
    rw [List.countP_filter]
    refine countP_ext_mem _ _ _ (fun r _ => ?_)
    by_cases he : keyTuple src.cols ks r = k
    · have hnot : keyTuple src.cols ks r ∉ keyList tgt.cols ks tgt.rows :=
        he ▸ hk
      simp [he, hnot]
      intro x hx he2
      exact hk (he2 ▸ List.mem_map_of_mem _ hx)
    · simp [he]
  · intro hk
    show (tgt.rows.filter _).countP _ = _
    rw [List.countP_filter]
    refine countP_ext_mem _ _ _ (fun t _ => ?_)
    by_cases he : keyTuple tgt.cols ks t = k
    · have hnot : keyTuple tgt.cols ks t ∉ keyList src.cols ks src.rows :=
        he ▸ hk
      simp [he, hnot]
      intro x hx he2
      exact hk (he2 ▸ List.mem_map_of_mem _ hx)
    · simp [he]

/-- C3 (witness): for the duplicated key `("1",)` absent from the target,
both counts of the amended statement evaluate to 2. -/
theorem C3_all_duplicate_rows_emitted_witness :
    (["1"] : List String) ∉ keyList ["id"] ["id"] [[.int 2]]
    ∧ (compare_with_keys ⟨["id"], [[.int 1], [.int 1]]⟩ ⟨["id"], [[.int 2]]⟩
        ["id"]).in_src_not_in_tgt.countP
        (fun r => decide (keyTuple ["id"] ["id"] r = ["1"])) = 2 :=
  ⟨by decide, by
    have h := (C3_all_duplicate_rows_emitted ⟨["id"], [[.int 1], [.int 1]]⟩
      ⟨["id"], [[.int 2]]⟩ ["id"] ["1"]).1 (by decide)
    rw [h]
    rfl⟩

/-! ### Claim C6: totality and shape of normalization -/

/-- C6: `normalize_key_value` is a total function (it is a Lean `def`, so
it can not raise); it maps null/NaN to the sentinel `"NA"`, and any other
value to its string form lowercased, stripped, with every whitespace and
underscore character removed — i.e. it agrees everywhere with the spec's
wording `normalizeSpec`. -/
theorem C6_normalize_total_and_spec (v : Value) :
    normalize_key_value v = normalizeSpec v :=
  normalize_eq_spec v

/-! ### Claim C7: threshold checking -/

/-- C7 (counterexample): `check_threshold 95 100 0.05` passes, but its
reason string is `"Record Count Match, with acceptable threshold"`, not
the claimed `"within threshold"` (similarly `"Record Count Mismatch"`,
not `"count mismatch"`, and `"Record Count Match Exactly"`, not
`"exact match"`). -/
theorem C7_reason_strings_cex :
    check_threshold 95 100 (5 / 100) ≠ (true, "within threshold") := by
  norm_num [check_threshold, ratAbs]
  decide

/-- C7 (amended): exact equality passes with reason
`"Record Count Match Exactly"`; otherwise the check passes iff
`|source_count - target_count| ≤ fraction · target_count` (reason
`"Record Count Match, with acceptable threshold"`), and fails with reason
`"Record Count Mismatch"`; in particular
`check_threshold 95 100 0.05 = (true, "Record Count Match, with
acceptable threshold")` and `check_threshold 80 100 0.05 =
(false, "Record Count Mismatch")`. -/
theorem C7_threshold_behavior (s t f : ℚ) (hf : 0 ≤ f * t) :
    (s = t → check_threshold s t f = (true, "Record Count Match Exactly"))
    ∧ (s ≠ t → ratAbs (s - t) ≤ f * t →
        check_threshold s t f
          = (true, "Record Count Match, with acceptable threshold"))
    ∧ (s ≠ t → ¬ ratAbs (s - t) ≤ f * t →
        check_threshold s t f = (false, "Record Count Mismatch"))
    ∧ ((check_threshold s t f).1 = true ↔ s = t ∨ ratAbs (s - t) ≤ f * t) := by
  have habs : ratAbs (t * f) = f * t := by
    unfold ratAbs
    rw [if_neg (by rw [mul_comm t f]; exact not_lt.mpr hf), mul_comm]
  by_cases heq : s = t
  · simp [check_threshold, heq]
  · by_cases hle : ratAbs (s - t) ≤ f * t
    · simp [check_threshold, heq, habs, hle]
    · simp [check_threshold, heq, habs, hle]

/-- C7 (witness): the two claimed inputs, with the code's actual reason
strings. -/
theorem C7_threshold_behavior_witness :
    (0 : ℚ) ≤ (5 / 100) * 100
    ∧ (95 : ℚ) ≠ 100
    ∧ ratAbs ((95 : ℚ) - 100) ≤ (5 / 100) * 100
    ∧ check_threshold 95 100 (5 / 100)
        = (true, "Record Count Match, with acceptable threshold") :=
  ⟨by norm_num, by norm_num, by norm_num [ratAbs],
   (C7_threshold_behavior 95 100 (5 / 100) (by norm_num)).2.1
     (by norm_num) (by norm_num [ratAbs])⟩

/-! ### Claim C10: hash-mode set semantics -/

/-- C10: hash-mode comparison has set semantics over row hashes: whenever
the two sides' row-hash **sets** over the shared columns coincide (row
multiplicities may differ), `df_hash_for_compare` reports no SourceOnly
rows, no TargetOnly rows and a `total_diff_count` of 0. -/
theorem C10_hash_set_semantics (src tgt : DF) (info : SharedColInfo)
    (hinfo : normalize_column_names src tgt = .ok info)
    (hset : ∀ h, h ∈ src.rows.map (rowHash src.cols info.src_shared_cols)
        ↔ h ∈ tgt.rows.map (rowHash tgt.cols info.tgt_shared_cols)) :
    df_hash_for_compare src tgt
      = .ok { in_src_not_in_tgt := [], in_tgt_not_in_src := [],
              value_mismatches := 0, total_diff_count := 0,
              is_identical := true } := by
  have h1 : src.rows.filter (fun r =>
      decide (rowHash src.cols info.src_shared_cols r ∉
        tgt.rows.map (rowHash tgt.cols info.tgt_shared_cols))) = [] := by
    rw [List.filter_eq_nil_iff]
    intro r hr
    simp only [decide_eq_true_eq, Decidable.not_not]
    exact (hset _).mp (List.mem_map_of_mem _ hr)
  have h2 : tgt.rows.filter (fun r =>
      decide (rowHash tgt.cols info.tgt_shared_cols r ∉
        src.rows.map (rowHash src.cols info.src_shared_cols))) = [] := by
    rw [List.filter_eq_nil_iff]
    intro r hr
    simp only [decide_eq_true_eq, Decidable.not_not]
    exact (hset _).mpr (List.mem_map_of_mem _ hr)
  unfold df_hash_for_compare
  rw [show (normalize_column_names src tgt >>= fun info2 => _) =
    _ from rfl]
  rw [hinfo]
  show Except.ok _ = Except.ok _
  rw [h1, h2]
  rfl

/-- C10 (witness): sides `[r1, r1, r2]` and `[r1, r2, r2]` have equal row
sets with different duplicate multiplicities; hash mode reports zero
differences. -/
theorem C10_hash_set_semantics_witness :
    normalize_column_names ⟨["a"], [[.int 1], [.int 1], [.int 2]]⟩
        ⟨["a"], [[.int 1], [.int 2], [.int 2]]⟩ = .ok ⟨["a"], ["a"], ["a"]⟩
    ∧ df_hash_for_compare ⟨["a"], [[.int 1], [.int 1], [.int 2]]⟩
        ⟨["a"], [[.int 1], [.int 2], [.int 2]]⟩
      = .ok ⟨[], [], 0, 0, true⟩ :=
  ⟨by rfl,
   C10_hash_set_semantics ⟨["a"], [[.int 1], [.int 1], [.int 2]]⟩
     ⟨["a"], [[.int 1], [.int 2], [.int 2]]⟩ ⟨["a"], ["a"], ["a"]⟩ (by rfl)
     (by
       intro h
       simp only [List.map_cons, List.map_nil, List.mem_cons,
         List.not_mem_nil, or_false]
       constructor <;> (rintro (h1 | h1 | h1) <;> simp [h1]))⟩

/-! ### Claim C4: truncation order in the Mismatch Analyzer -/

/-- C4 (code evaluation at the failing input): with source-only keys
arriving in order `("b",), ("a",)` and `max_source_only = 1`, the
Mismatch Analyzer keeps the row with key `("b",)` — the keys are
truncated in key-set iteration order *before* any sorting (the
`sort_values` of lines 1227-1229 runs on the already-truncated rows), so
the survivor is **not** the smallest key: `("a",) < ("b",)` is dropped. -/
theorem C4_truncation_before_sort_eval :
    (process_mismatches ["id"] ["id"]
        (create_composite_keys ["id"] ["id"] [[.str "b"], [.str "a"]]) []
        1000 1 250).1.map (fun p => p.2.key) = [["b"]]
    ∧ strLeb "a" "b" = true
    ∧ ("a" : String) ≠ "b"
    ∧ ⟨["a"], [.str "a"]⟩ ∈ create_composite_keys ["id"] ["id"]
        [[.str "b"], [.str "a"]] := by
  refine ⟨by decide, by decide, by decide, by decide⟩

/-! ### Claim C5: hash-mode behavior -/

/-- C5: with no key columns `compare` runs in hash mode: (1) every run
that returns has `value_mismatches = 0` and no diff row tagged
ValueMismatch; (2) each chunk's hash comparison keeps exactly the source
rows whose row hash over the shared columns occurs in no target row
(the symmetric difference of the two hash sets), tagging them
SourceOnly, and symmetrically TargetOnly — so a row whose values changed
surfaces as one SourceOnly plus one TargetOnly row. -/
theorem C5_hash_mode_behavior :
    (∀ (src tgt : DF) (cs : Nat) (out : List TaggedRow × Summary),
      compare_dataframes src tgt none cs = .ok out →
      out.2.valueMismatches = 0
      ∧ ∀ tr ∈ out.1, tr.tag ≠ Tag.valueMismatch)
    ∧ (∀ (src tgt : DF) (r : HashCompareResult) (info : SharedColInfo),
      normalize_column_names src tgt = .ok info →
      df_hash_for_compare src tgt = .ok r →
      r.in_src_not_in_tgt = src.rows.filter (fun row =>
        decide (rowHash src.cols info.src_shared_cols row ∉
          tgt.rows.map (rowHash tgt.cols info.tgt_shared_cols)))
      ∧ r.in_tgt_not_in_src = tgt.rows.filter (fun row =>
        decide (rowHash tgt.cols info.tgt_shared_cols row ∉
          src.rows.map (rowHash src.cols info.src_shared_cols)))
      ∧ r.value_mismatches = 0) := by
  constructor
  · intro src tgt cs out h
    rcases compare_ok_hash_inv _ _ _ _ _ (Or.inl rfl) h with ⟨_, agg, hagg, hout⟩
    rcases chunkHash_ok_shape _ _ _ _ _ _ hagg with ⟨e1, e2, _⟩
    subst hout
    constructor
    · simp [summaryOfAgg, e1, e2]
    · intro tr htr
      simp only [taggedOutput, e1, List.map_nil, List.append_nil,
        List.mem_append, List.mem_map] at htr
      rcases htr with ⟨r, _, rfl⟩ | ⟨r, _, rfl⟩ <;> simp
  · intro src tgt r info hinfo h
    rcases df_hash_ok _ _ _ h with ⟨info2, hinfo2, hrEq⟩
    rw [hinfo] at hinfo2
    injection hinfo2 with hii
    subst hii
    subst hrEq
    exact ⟨rfl, rfl, rfl⟩

/-- C5 (witness): source `[[1]]` vs target `[[2]]` over one shared
column: one SourceOnly plus one TargetOnly row, no ValueMismatch. -/
theorem C5_hash_mode_behavior_witness :
    compare_dataframes ⟨["a"], [[.int 1]]⟩ ⟨["a"], [[.int 2]]⟩ none 5
      = .ok ([⟨.source, .sourceOnly, [.int 1]⟩,
              ⟨.target, .targetOnly, [.int 2]⟩],
             ⟨1, 1, 1, 1, 0, 2, "Differences found"⟩)
    ∧ ((⟨1, 1, 1, 1, 0, 2, "Differences found"⟩ : Summary).valueMismatches = 0
      ∧ ∀ tr ∈ [(⟨.source, .sourceOnly, [.int 1]⟩ : TaggedRow),
                ⟨.target, .targetOnly, [.int 2]⟩],
          tr.tag ≠ Tag.valueMismatch) :=
  ⟨by rfl,
   C5_hash_mode_behavior.1 ⟨["a"], [[.int 1]]⟩ ⟨["a"], [[.int 2]]⟩ 5
     ([⟨.source, .sourceOnly, [.int 1]⟩, ⟨.target, .targetOnly, [.int 2]⟩],
      ⟨1, 1, 1, 1, 0, 2, "Differences found"⟩) (by rfl)⟩

/-! ### Claim C8: failure behavior of compare -/

lemma norm_cols_error (src tgt : DF)
    (h : ∀ c ∈ src.cols, lowerStr c ∉ tgt.cols.map lowerStr) :
    normalize_column_names src tgt
      = .error "DataFrames have no columns in common" := by
  have hfil : (src.cols.map lowerStr).filter
      (fun k => decide (k ∈ tgt.cols.map lowerStr)) = [] := by
    rw [List.filter_eq_nil_iff]
    intro a ha
    rcases List.mem_map.mp ha with ⟨c, hc, rfl⟩
    simp [h c hc]
  unfold normalize_column_names
  rw [hfil]
  rfl

lemma df_hash_error (src tgt : DF)
    (h : ∀ c ∈ src.cols, lowerStr c ∉ tgt.cols.map lowerStr) :
    df_hash_for_compare src tgt
      = .error "DataFrames have no columns in common" := by
  unfold df_hash_for_compare
  rw [norm_cols_error src tgt h]
  rfl

/-- C8 (counterexample): in hash mode two dataframes with **zero rows**
and disjoint column sets produce **no** chunks, so `compare` returns an
Identical summary instead of failing with NoCommonColumns. -/
theorem C8_no_common_columns_cex :
    compare_dataframes ⟨["a"], []⟩ ⟨["x"], []⟩ none 5
      = .ok ([], ⟨0, 0, 0, 0, 0, 0, "Identical"⟩) := by rfl

/-- C8 (amended): `compare` never returns a partial result.  In key mode
(or in hash mode once at least one chunk exists, i.e. some row is
present), disjoint column sets abort the whole comparison with the
NoCommonColumns failure, and an unresolvable key-column list aborts with
the KeyColumnsNotFound failure; each underlying error is wrapped as
`"Data comparison failed: …"` (chunk index and row range appear only in
the log, not in the raised error; and with zero rows on both sides hash
mode returns an Identical summary instead of failing). -/
theorem C8_failure_behavior :
    (∀ (src tgt : DF) (k : String) (ks : List String) (cs : Nat),
      cs ≠ 0 →
      (∀ c ∈ src.cols, lowerStr c ∉ tgt.cols.map lowerStr) →
      compare_dataframes src tgt (some (k :: ks)) cs
        = .error "Data comparison failed: DataFrames have no columns in common")
    ∧ (∀ (src tgt : DF) (k : String) (ks : List String) (cs : Nat)
        (info : SharedColInfo),
      cs ≠ 0 →
      normalize_column_names src tgt = .ok info →
      validate_key_columns (k :: ks) info
        = .error "Key columns not found in both dataframes" →
      compare_dataframes src tgt (some (k :: ks)) cs
        = .error "Data comparison failed: Key columns not found in both dataframes")
    ∧ (∀ (src tgt : DF) (cs : Nat),
      cs ≠ 0 → (src.rows ≠ [] ∨ tgt.rows ≠ []) →
      (∀ c ∈ src.cols, lowerStr c ∉ tgt.cols.map lowerStr) →
      compare_dataframes src tgt none cs
        = .error "Data comparison failed: DataFrames have no columns in common") := by
  refine ⟨?_, ?_, ?_⟩
  · intro src tgt k ks cs hcs h
    unfold compare_dataframes
    rw [if_neg hcs, norm_cols_error src tgt h]
    rfl
  · intro src tgt k ks cs info hcs hinfo hval
    unfold compare_dataframes
    rw [if_neg hcs, hinfo]
    show ((validate_key_columns (k :: ks) info >>= _)).mapError _ = _
    rw [hval]
    rfl
  · intro src tgt cs hcs hrows h
    unfold compare_dataframes
    rw [if_neg hcs]
    have hmax : 1 ≤ max src.rows.length tgt.rows.length := by
      rcases hrows with h1 | h1
      · exact le_trans (Nat.one_le_iff_ne_zero.mpr
          (fun hc => h1 (List.length_eq_zero.mp hc))) (le_max_left _ _)
      · exact le_trans (Nat.one_le_iff_ne_zero.mpr
          (fun hc => h1 (List.length_eq_zero.mp hc))) (le_max_right _ _)
    have hchunks : ∃ m, numChunks cs (max src.rows.length tgt.rows.length)
        = m + 1 := by
      have h1 : 1 ≤ numChunks cs (max src.rows.length tgt.rows.length) := by
        unfold numChunks
        rw [Nat.one_le_div_iff (Nat.pos_of_ne_zero hcs)]
        omega
      exact ⟨numChunks cs (max src.rows.length tgt.rows.length) - 1,
        by omega⟩
    rcases hchunks with ⟨m, hm⟩
    unfold chunkHashCompare
    rw [hm, List.range_succ_eq_map, List.foldlM_cons,
      df_hash_error ⟨src.cols, sliceChunk cs 0 src.rows⟩
        ⟨tgt.cols, sliceChunk cs 0 tgt.rows⟩ h]
    rfl

/-- C8 (witness): dataframes with disjoint columns fail with the wrapped
NoCommonColumns error in key mode, and in hash mode even when only the
target side has a row (one chunk still runs). -/
theorem C8_failure_behavior_witness :
    (5 : Nat) ≠ 0
    ∧ (∀ c ∈ (["a"] : List String), lowerStr c ∉ (["x"] : List String).map lowerStr)
    ∧ compare_dataframes ⟨["a"], [[.int 1]]⟩ ⟨["x"], [[.int 1]]⟩
        (some ["a"]) 5
      = .error "Data comparison failed: DataFrames have no columns in common"
    ∧ compare_dataframes ⟨["a"], []⟩ ⟨["x"], [[.int 1]]⟩ none 5
      = .error "Data comparison failed: DataFrames have no columns in common" :=
  ⟨by decide, by decide,
   C8_failure_behavior.1 ⟨["a"], [[.int 1]]⟩ ⟨["x"], [[.int 1]]⟩ "a" [] 5
     (by decide) (by decide),
   C8_failure_behavior.2.2 ⟨["a"], []⟩ ⟨["x"], [[.int 1]]⟩ 5
     (by decide) (Or.inr (by decide)) (by decide)⟩

/-! ### Claim C9: chunk invariance in key mode -/

/-- "No composite key spans a chunk boundary", in the strong form needed
for `chunk_size = 1`: every occurrence of a key — at any source row
position or target row position — sits at one single common position
index.  (Positional chunking keeps a key's rows together for *every*
chunk size exactly when this holds.) -/
def NoKeySpan (a b : List (List String)) : Prop :=
  ∀ (i j : Nat) (k : List String),
    (a[i]? = some k ∨ b[i]? = some k) →
    (a[j]? = some k ∨ b[j]? = some k) → i = j

lemma noKeySpan_drop (a b : List (List String)) (n : Nat)
    (H : NoKeySpan a b) : NoKeySpan (a.drop n) (b.drop n) := by
  intro i j k h1 h2
  have h1b : a[n + i]? = some k ∨ b[n + i]? = some k := by
    rcases h1 with h | h <;> rw [List.getElem?_drop] at h <;> simp [h]
  have h2b : a[n + j]? = some k ∨ b[n + j]? = some k := by
    rcases h2 with h | h <;> rw [List.getElem?_drop] at h <;> simp [h]
  have := H (n + i) (n + j) k h1b h2b
  omega

/-- A key occurring in the front part (before the cut) and also somewhere
in a full list occurs in that list's front part. -/
lemma front_mem_of_mem (a b : List (List String)) (n : Nat)
    (H : NoKeySpan a b) (k : List String)
    (hfront : k ∈ a.take n) (hb : k ∈ b) : k ∈ b.take n := by
  rcases (mem_take_iff_index a n k).mp hfront with ⟨i, hin, hi⟩
  rcases List.mem_iff_getElem?.mp hb with ⟨j, hj⟩
  have := H i j k (Or.inl hi) (Or.inr hj)
  exact (mem_take_iff_index b n k).mpr ⟨j, by omega, hj⟩

/-- A key occurring in the back part (at or past the cut) and also
somewhere in a full list occurs in that list's back part. -/
lemma back_mem_of_mem (a b : List (List String)) (n : Nat)
    (H : NoKeySpan a b) (k : List String)
    (hback : k ∈ a.drop n) (hb : k ∈ b) : k ∈ b.drop n := by
  rcases (mem_drop_iff_index a n k).mp hback with ⟨i, hi⟩
  rcases List.mem_iff_getElem?.mp hb with ⟨j, hj⟩
  have := H (n + i) j k (Or.inl hi) (Or.inr hj)
  exact (mem_drop_iff_index b n k).mpr ⟨j - n, by
    rw [show n + (j - n) = j from by omega]
    exact hj⟩

lemma keyList_take (cols ks : List String) (rows : List (List Value))
    (n : Nat) : keyList cols ks (rows.take n) = (keyList cols ks rows).take n := by
  unfold keyList
  rw [List.map_take]

lemma keyList_drop (cols ks : List String) (rows : List (List Value))
    (n : Nat) : keyList cols ks (rows.drop n) = (keyList cols ks rows).drop n := by
  unfold keyList
  rw [List.map_drop]

lemma noKeySpan_symm (a b : List (List String)) (H : NoKeySpan a b) :
    NoKeySpan b a := by
  intro i j k h1 h2
  exact H i j k h1.symm h2.symm

lemma mem_keyList_iff_filter (tc ks : List String) (T : List (List Value))
    (k : List String) :
    k ∈ keyList tc ks T
      ↔ T.filter (fun t => decide (keyTuple tc ks t = k)) ≠ [] := by
  rw [Ne, List.filter_eq_nil_iff]
  unfold keyList
  constructor
  · intro hm hall
    rcases List.mem_map.mp hm with ⟨t, ht, he⟩
    have := hall t ht
    simp [he] at this
  · intro hne
    by_contra hnm
    refine hne (fun t ht => ?_)
    simp only [decide_eq_true_eq]
    intro he
    exact hnm (List.mem_map.mpr ⟨t, ht, he⟩)

/-- Under `NoKeySpan`, the target rows sharing the key of a row from the
front window all lie in the front window. -/
lemma filter_key_eq_take (sc tc ks : List String)
    (S T : List (List Value)) (n : Nat)
    (H : NoKeySpan (keyList sc ks S) (keyList tc ks T))
    (r : List Value) (hr : r ∈ S.take n) :
    T.filter (fun t => decide (keyTuple tc ks t = keyTuple sc ks r))
      = (T.take n).filter
          (fun t => decide (keyTuple tc ks t = keyTuple sc ks r)) := by
  conv_lhs => rw [← List.take_append_drop n T]
  rw [List.filter_append]
  have hfr : keyTuple sc ks r ∈ (keyList sc ks S).take n := by
    rw [← keyList_take]
    exact List.mem_map_of_mem _ hr
  rcases (mem_take_iff_index _ n _).mp hfr with ⟨i, hin, hi⟩
  have hnil : (T.drop n).filter
      (fun t => decide (keyTuple tc ks t = keyTuple sc ks r)) = [] := by
    rw [List.filter_eq_nil_iff]
    intro t ht
    simp only [decide_eq_true_eq]
    intro he
    have hbk : keyTuple sc ks r ∈ (keyList tc ks T).drop n := by
      rw [← keyList_drop, ← he]
      exact List.mem_map_of_mem _ ht
    rcases (mem_drop_iff_index _ n _).mp hbk with ⟨j, hj⟩
    have := H i (n + j) _ (Or.inl hi) (Or.inr hj)
    omega
  rw [hnil, List.append_nil]

/-- Under `NoKeySpan`, the target rows sharing the key of a row from the
back window all lie in the back window. -/
lemma filter_key_eq_drop (sc tc ks : List String)
    (S T : List (List Value)) (n : Nat)
    (H : NoKeySpan (keyList sc ks S) (keyList tc ks T))
    (r : List Value) (hr : r ∈ S.drop n) :
    T.filter (fun t => decide (keyTuple tc ks t = keyTuple sc ks r))
      = (T.drop n).filter
          (fun t => decide (keyTuple tc ks t = keyTuple sc ks r)) := by
  conv_lhs => rw [← List.take_append_drop n T]
  rw [List.filter_append]
  have hbr : keyTuple sc ks r ∈ (keyList sc ks S).drop n := by
    rw [← keyList_drop]
    exact List.mem_map_of_mem _ hr
  rcases (mem_drop_iff_index _ n _).mp hbr with ⟨i, hi⟩
  have hnil : (T.take n).filter
      (fun t => decide (keyTuple tc ks t = keyTuple sc ks r)) = [] := by
    rw [List.filter_eq_nil_iff]
    intro t ht
    simp only [decide_eq_true_eq]
    intro he
    have hfk : keyTuple sc ks r ∈ (keyList tc ks T).take n := by
      rw [← keyList_take, ← he]
      exact List.mem_map_of_mem _ ht
    rcases (mem_take_iff_index _ n _).mp hfk with ⟨j, hjn, hj⟩
    have := H (n + i) j _ (Or.inl hi) (Or.inr hj)
    omega
  rw [hnil, List.nil_append]

lemma soCount_split (sc tc ks : List String) (S T : List (List Value))
    (n : Nat) (H : NoKeySpan (keyList sc ks S) (keyList tc ks T)) :
    soCount sc tc ks S T
      = soCount sc tc ks (S.take n) (T.take n)
        + soCount sc tc ks (S.drop n) (T.drop n) := by
  unfold soCount
  conv_lhs => rw [← List.take_append_drop n S]
  rw [List.countP_append]
  congr 1
  · refine countP_ext_mem _ _ _ (fun r hr => ?_)
    have hfe := filter_key_eq_take sc tc ks S T n H r hr
    rw [decide_eq_decide]
    rw [mem_keyList_iff_filter, mem_keyList_iff_filter, hfe]
  · refine countP_ext_mem _ _ _ (fun r hr => ?_)
    have hfe := filter_key_eq_drop sc tc ks S T n H r hr
    rw [decide_eq_decide]
    rw [mem_keyList_iff_filter, mem_keyList_iff_filter, hfe]

lemma toCount_split (sc tc ks : List String) (S T : List (List Value))
    (n : Nat) (H : NoKeySpan (keyList sc ks S) (keyList tc ks T)) :
    toCount sc tc ks S T
      = toCount sc tc ks (S.take n) (T.take n)
        + toCount sc tc ks (S.drop n) (T.drop n) := by
  unfold toCount
  conv_lhs => rw [← List.take_append_drop n T]
  rw [List.countP_append]
  have Hs := noKeySpan_symm _ _ H
  congr 1
  · refine countP_ext_mem _ _ _ (fun t ht => ?_)
    have hfe := filter_key_eq_take tc sc ks T S n Hs t ht
    rw [decide_eq_decide]
    rw [mem_keyList_iff_filter, mem_keyList_iff_filter, hfe]
  · refine countP_ext_mem _ _ _ (fun t ht => ?_)
    have hfe := filter_key_eq_drop tc sc ks T S n Hs t ht
    rw [decide_eq_decide]
    rw [mem_keyList_iff_filter, mem_keyList_iff_filter, hfe]

lemma vmRowTotal_split (sc tc ks : List String) (S T : List (List Value))
    (n : Nat) (H : NoKeySpan (keyList sc ks S) (keyList tc ks T)) :
    vmRowTotal sc tc ks S T
      = vmRowTotal sc tc ks (S.take n) (T.take n)
        + vmRowTotal sc tc ks (S.drop n) (T.drop n) := by
  unfold vmRowTotal
  have Hs := noKeySpan_symm _ _ H
  have hsrc : S.countP (vmSrcPred sc tc ks T)
      = (S.take n).countP (vmSrcPred sc tc ks (T.take n))
        + (S.drop n).countP (vmSrcPred sc tc ks (T.drop n)) := by
    conv_lhs => rw [← List.take_append_drop n S]
    rw [List.countP_append]
    congr 1
    · refine countP_ext_mem _ _ _ (fun r hr => ?_)
      have hfe := filter_key_eq_take sc tc ks S T n H r hr
      unfold vmSrcPred
      rw [hfe]
      congr 1
      rw [decide_eq_decide, mem_keyList_iff_filter, mem_keyList_iff_filter,
        hfe]
    · refine countP_ext_mem _ _ _ (fun r hr => ?_)
      have hfe := filter_key_eq_drop sc tc ks S T n H r hr
      unfold vmSrcPred
      rw [hfe]
      congr 1
      rw [decide_eq_decide, mem_keyList_iff_filter, mem_keyList_iff_filter,
        hfe]
  have htgt : T.countP (vmTgtPred sc tc ks S)
      = (T.take n).countP (vmTgtPred sc tc ks (S.take n))
        + (T.drop n).countP (vmTgtPred sc tc ks (S.drop n)) := by
    conv_lhs => rw [← List.take_append_drop n T]
    rw [List.countP_append]
    congr 1
    · refine countP_ext_mem _ _ _ (fun t ht => ?_)
      have hfe := filter_key_eq_take tc sc ks T S n Hs t ht
      unfold vmTgtPred
      rw [hfe]
      congr 1
      rw [decide_eq_decide, mem_keyList_iff_filter, mem_keyList_iff_filter,
        hfe]
    · refine countP_ext_mem _ _ _ (fun t ht => ?_)
      have hfe := filter_key_eq_drop tc sc ks T S n Hs t ht
      unfold vmTgtPred
      rw [hfe]
      congr 1
      rw [decide_eq_decide, mem_keyList_iff_filter, mem_keyList_iff_filter,
        hfe]
  omega

lemma numChunks_cover (cs total : Nat) (hcs : cs ≠ 0) :
    total ≤ numChunks cs total * cs := by
  unfold numChunks
  rw [Nat.mul_comm]
  have hdm := Nat.div_add_mod (total + cs - 1) cs
  have hlt := Nat.mod_lt (total + cs - 1) (Nat.pos_of_ne_zero hcs)
  omega

/-- Summing a two-sided count over all positional windows recovers the
global count, provided splitting at a window boundary is sound. -/
lemma sum_chunks_eq (cs : Nat)
    (f : List (List Value) → List (List Value) → Nat)
    (P : List (List Value) → List (List Value) → Prop)
    (hsplit : ∀ S T n, P S T →
      f S T = f (S.take n) (T.take n) + f (S.drop n) (T.drop n))
    (hdrop : ∀ S T n, P S T → P (S.drop n) (T.drop n))
    (hnil : f [] [] = 0) :
    ∀ (n : Nat) (S T : List (List Value)), P S T →
      S.length ≤ n * cs → T.length ≤ n * cs →
      ((List.range n).map
        (fun i => f (sliceChunk cs i S) (sliceChunk cs i T))).sum = f S T := by
  intro n
  induction n with
  | zero =>
    intro S T hP hS hT
    simp only [Nat.zero_mul, Nat.le_zero, List.length_eq_zero] at hS hT
    subst hS
    subst hT
    simpa using hnil.symm
  | succ m ih =>
    intro S T hP hS hT
    rw [List.range_succ_eq_map, List.map_cons, List.sum_cons, List.map_map]
    have hhead : ∀ L : List (List Value), sliceChunk cs 0 L = L.take cs := by
      intro L
      unfold sliceChunk
      simp
    have htail : ∀ (L : List (List Value)) (i : Nat),
        sliceChunk cs (i + 1) L = sliceChunk cs i (L.drop cs) := by
      intro L i
      unfold sliceChunk
      rw [List.drop_drop]
      congr 2
      rw [Nat.succ_mul]
      omega
    have hmap : (List.range m).map
        ((fun i => f (sliceChunk cs i S) (sliceChunk cs i T)) ∘ (· + 1))
        = (List.range m).map (fun i =>
            f (sliceChunk cs i (S.drop cs)) (sliceChunk cs i (T.drop cs))) := by
      refine List.map_congr_left (fun i _ => ?_)
      simp only [Function.comp_apply, htail]
    rw [hmap, hhead S, hhead T,
      ih (S.drop cs) (T.drop cs) (hdrop S T cs hP)
        (by rw [List.length_drop, Nat.succ_mul] at *; omega)
        (by rw [List.length_drop, Nat.succ_mul] at *; omega)]
    exact (hsplit S T cs hP).symm

/-- Under `NoKeySpan`, the chunked key-mode loop produces exactly the
global (single-pass) numbers of SourceOnly, TargetOnly and ValueMismatch
rows, for every chunk size. -/
lemma chunkKey_counts_global (cs : Nat) (hcs : cs ≠ 0)
    (sc tc ks : List String) (S T : List (List Value))
    (H : NoKeySpan (keyList sc ks S) (keyList tc ks T)) :
    (chunkKeyCompare cs sc tc S T ks).srcOnly.length = soCount sc tc ks S T
    ∧ (chunkKeyCompare cs sc tc S T ks).tgtOnly.length = toCount sc tc ks S T
    ∧ (chunkKeyCompare cs sc tc S T ks).vmRows.length
        = vmRowTotal sc tc ks S T := by
  have hSlen : S.length ≤ numChunks cs (max S.length T.length) * cs :=
    le_trans (le_max_left _ _) (numChunks_cover cs _ hcs)
  have hTlen : T.length ≤ numChunks cs (max S.length T.length) * cs :=
    le_trans (le_max_right _ _) (numChunks_cover cs _ hcs)
  have hdropP : ∀ (S2 T2 : List (List Value)) (n : Nat),
      NoKeySpan (keyList sc ks S2) (keyList tc ks T2) →
      NoKeySpan (keyList sc ks (S2.drop n)) (keyList tc ks (T2.drop n)) := by
    intro S2 T2 n hP
    rw [keyList_drop, keyList_drop]
    exact noKeySpan_drop _ _ n hP
  rw [chunkKey_parts]
  simp only [List.length_flatMap, Function.comp_def]
  refine ⟨?_, ?_, ?_⟩
  · rw [List.map_congr_left (fun i _ =>
      cwk_in_src_len ⟨sc, sliceChunk cs i S⟩ ⟨tc, sliceChunk cs i T⟩ ks)]
    exact sum_chunks_eq cs (soCount sc tc ks)
      (fun S2 T2 => NoKeySpan (keyList sc ks S2) (keyList tc ks T2))
      (soCount_split sc tc ks) hdropP rfl _ S T H hSlen hTlen
  · rw [List.map_congr_left (fun i _ =>
      cwk_in_tgt_len ⟨sc, sliceChunk cs i S⟩ ⟨tc, sliceChunk cs i T⟩ ks)]
    exact sum_chunks_eq cs (toCount sc tc ks)
      (fun S2 T2 => NoKeySpan (keyList sc ks S2) (keyList tc ks T2))
      (toCount_split sc tc ks) hdropP rfl _ S T H hSlen hTlen
  · rw [List.map_congr_left (fun i _ =>
      cwk_vm_len ⟨sc, sliceChunk cs i S⟩ ⟨tc, sliceChunk cs i T⟩ ks)]
    exact sum_chunks_eq cs (vmRowTotal sc tc ks)
      (fun S2 T2 => NoKeySpan (keyList sc ks S2) (keyList tc ks T2))
      (vmRowTotal_split sc tc ks) hdropP rfl _ S T H hSlen hTlen

/-- C9: in key mode, when no composite key spans a chunk boundary (every
key's source and target occurrences share one row position, the condition
that makes positional chunking key-safe even at `chunk_size = 1`),
`compare` with `chunk_size = 1` and `compare` with `chunk_size = 10^6`
yield identical summaries. -/
theorem C9_chunk_invariance (src tgt : DF) (k : String) (ks : List String)
    (out1 out2 : List TaggedRow × Summary)
    (h1 : compare_dataframes src tgt (some (k :: ks)) 1 = .ok out1)
    (h2 : compare_dataframes src tgt (some (k :: ks)) 1000000 = .ok out2)
    (H : ∀ (info : SharedColInfo) (keys : List String × List String),
      normalize_column_names src tgt = .ok info →
      validate_key_columns (k :: ks) info = .ok keys →
      NoKeySpan (keyList src.cols keys.1 src.rows)
        (keyList tgt.cols keys.1 tgt.rows)) :
    out1.2 = out2.2 := by
  rcases compare_ok_key_inv _ _ _ _ _ _ h1 with ⟨_, info1, keys1, hi1, hk1, ho1⟩
  rcases compare_ok_key_inv _ _ _ _ _ _ h2 with ⟨_, info2, keys2, hi2, hk2, ho2⟩
  rw [hi1] at hi2
  injection hi2 with hi
  subst hi
  rw [hk1] at hk2
  injection hk2 with hk
  subst hk
  have HN := H info1 keys1 hi1 hk1
  have c1 := chunkKey_counts_global 1 (by omega) src.cols tgt.cols keys1.1
    src.rows tgt.rows HN
  have c2 := chunkKey_counts_global 1000000 (by omega) src.cols tgt.cols
    keys1.1 src.rows tgt.rows HN
  have s1 := chunkKey_shape 1 src.cols tgt.cols src.rows tgt.rows keys1.1
  have s2 := chunkKey_shape 1000000 src.cols tgt.cols src.rows tgt.rows keys1.1
  subst ho1
  subst ho2
  show summaryOfAgg src tgt
      (chunkKeyCompare 1 src.cols tgt.cols src.rows tgt.rows keys1.1)
    = summaryOfAgg src tgt
      (chunkKeyCompare 1000000 src.cols tgt.cols src.rows tgt.rows keys1.1)
  rcases c1 with ⟨a1, b1, v1⟩
  rcases c2 with ⟨a2, b2, v2⟩
  have eSO := a1.trans a2.symm
  have eTO := b1.trans b2.symm
  have eVM := v1.trans v2.symm
  have eTD : (chunkKeyCompare 1 src.cols tgt.cols src.rows tgt.rows
        keys1.1).totalDiff
      = (chunkKeyCompare 1000000 src.cols tgt.cols src.rows tgt.rows
        keys1.1).totalDiff := by
    rw [s1.1, s2.1, eSO, eTO, eVM]
  have eMax : max (chunkKeyCompare 1 src.cols tgt.cols src.rows tgt.rows
        keys1.1).vmCount
        ((chunkKeyCompare 1 src.cols tgt.cols src.rows tgt.rows
          keys1.1).vmRows.length / 2)
      = max (chunkKeyCompare 1000000 src.cols tgt.cols src.rows tgt.rows
          keys1.1).vmCount
        ((chunkKeyCompare 1000000 src.cols tgt.cols src.rows tgt.rows
          keys1.1).vmRows.length / 2) := by
    rw [Nat.max_eq_right s1.2, Nat.max_eq_right s2.2, eVM]
  unfold summaryOfAgg
  rw [eSO, eTO, eTD, eMax]

/-- C9 (witness): a one-row pair (every key trivially confined to one
position) gives the same summary at chunk sizes 1 and 10^6. -/
theorem C9_chunk_invariance_witness :
    compare_dataframes ⟨["id", "v"], [[.int 1, .str "a"]]⟩
        ⟨["id", "v"], [[.int 1, .str "b"]]⟩ (some ["id"]) 1
      = .ok ([⟨.source, .valueMismatch, [.int 1, .str "a"]⟩,
              ⟨.target, .valueMismatch, [.int 1, .str "b"]⟩],
             ⟨1, 1, 0, 0, 1, 2, "Differences found"⟩)
    ∧ compare_dataframes ⟨["id", "v"], [[.int 1, .str "a"]]⟩
        ⟨["id", "v"], [[.int 1, .str "b"]]⟩ (some ["id"]) 1000000
      = .ok ([⟨.source, .valueMismatch, [.int 1, .str "a"]⟩,
              ⟨.target, .valueMismatch, [.int 1, .str "b"]⟩],
             ⟨1, 1, 0, 0, 1, 2, "Differences found"⟩)
    ∧ ((⟨1, 1, 0, 0, 1, 2, "Differences found"⟩ : Summary)
        = ⟨1, 1, 0, 0, 1, 2, "Differences found"⟩) :=
  ⟨by rfl, by rfl,
   C9_chunk_invariance ⟨["id", "v"], [[.int 1, .str "a"]]⟩
     ⟨["id", "v"], [[.int 1, .str "b"]]⟩ "id" []
     ([⟨.source, .valueMismatch, [.int 1, .str "a"]⟩,
       ⟨.target, .valueMismatch, [.int 1, .str "b"]⟩],
      ⟨1, 1, 0, 0, 1, 2, "Differences found"⟩)
     ([⟨.source, .valueMismatch, [.int 1, .str "a"]⟩,
       ⟨.target, .valueMismatch, [.int 1, .str "b"]⟩],
      ⟨1, 1, 0, 0, 1, 2, "Differences found"⟩)
     (by rfl) (by rfl)
     (by
       intro info keys _ _ i j kk hh1 hh2
       have hi : i = 0 := by
         rcases hh1 with h | h <;>
           · rcases List.getElem?_eq_some.mp h with ⟨hlt, _⟩
             simp only [keyList, List.length_map, List.length_cons,
               List.length_nil] at hlt
             omega
       have hj : j = 0 := by
         rcases hh2 with h | h <;>
           · rcases List.getElem?_eq_some.mp h with ⟨hlt, _⟩
             simp only [keyList, List.length_map, List.length_cons,
               List.length_nil] at hlt
             omega
       omega)⟩

end DataQE
